import Mathlib

/-!
Shallow embedding of the Shortify URL-shortener core
(`src/services/url-service/main.py`, `src/services/api-gateway/main.py`,
`src/services/auth-service/main.py`).

Modelling conventions:
* The URL Store (PostgreSQL `urls` table) is a `List URLRecord`; the unique
  index on `short_code` is modelled by `insertUnique`, which fails (the
  `IntegrityError` branch) exactly when a row with the same short code is
  already present.
* The Resolution Cache (Redis) is an association list from short codes to
  target URL strings.  Every cache helper in the source swallows Redis
  exceptions (`get` returns `None`, `setex`/`delete` become no-ops), so each
  helper takes a flag `up : Bool`; `up = false` is the state in which every
  cache operation raises.
* `datetime` values are `Nat` ticks; `datetime.utcnow()` is a `now : Nat`
  parameter.
* Python truthiness of `Optional[str]` / `Optional[int]` arguments
  (`if url_data.custom_alias:`, `if cached_url:`, `if user_id:`) is modelled
  by `truthyStr` / `truthyOptInt`.
* `random.choices(string.ascii_letters + string.digits, k=length)` is
  modelled by a stream `rng : Nat -> Nat` of random draws, each reduced
  modulo the alphabet size; `str.isalnum` is modelled for ASCII strings
  (false on the empty string, as in Python).
-/

namespace Shortify

/-- The alphabet `string.ascii_letters + string.digits` used by
`generate_short_code` in `url-service/main.py`. -/
def ascii_letters_digits : List Char :=
  "abcdefghijklmnopqrstuvwxyzABCDEFGHIJKLMNOPQRSTUVWXYZ0123456789".toList

theorem ascii_letters_digits_length_pos : 0 < ascii_letters_digits.length := by
  decide

/-- `generate_short_code` from `url-service/main.py`: `length` independent
uniform draws from `ascii_letters_digits`, the draws supplied by `rng`. -/
def generate_short_code (rng : Nat → Nat) (len : Nat) : String :=
  String.mk ((List.range len).map (fun i =>
    ascii_letters_digits.get
      ⟨rng i % ascii_letters_digits.length,
       Nat.mod_lt _ ascii_letters_digits_length_pos⟩))

/-- A row of the `urls` table (SQLAlchemy model `URL`). -/
structure URLRecord where
  id : Nat
  original_url : String
  short_code : String
  custom_alias : Bool
  user_id : Option Int
  created_at : Nat
  expires_at : Option Nat
  is_active : Bool
deriving Repr, DecidableEq

/-- The URL Store: the rows of the `urls` table, oldest first. -/
abbrev Store := List URLRecord

/-- `select(URL).where(URL.short_code == short_code)` followed by
`scalar_one_or_none()`. -/
def findByCode (db : Store) (code : String) : Option URLRecord :=
  db.find? (fun r => r.short_code == code)

/-- The Resolution Cache: Redis keys `url:<short_code>` with their values. -/
abbrev Cache := List (String × String)

def cacheGet (c : Cache) (code : String) : Option String :=
  (c.find? (fun p => p.1 == code)).map (fun p => p.2)

def cacheSet (c : Cache) (code url : String) : Cache :=
  (code, url) :: c.filter (fun p => p.1 != code)

def cacheDel (c : Cache) (code : String) : Cache :=
  c.filter (fun p => p.1 != code)

/-- `get_url_from_cache`: returns the cached value, or `none` when Redis
raises (`up = false`, the `except` branch). -/
def get_url_from_cache (up : Bool) (c : Cache) (code : String) : Option String :=
  if up then cacheGet c code else none

/-- `set_url_in_cache`: `SETEX url:<code>`; a no-op when Redis raises. -/
def set_url_in_cache (up : Bool) (c : Cache) (code url : String) : Cache :=
  if up then cacheSet c code url else c

/-- `delete_url_from_cache`: `DEL url:<code>`; a no-op when Redis raises. -/
def delete_url_from_cache (up : Bool) (c : Cache) (code : String) : Cache :=
  if up then cacheDel c code else c

/-- Python truthiness of an `Optional[str]`: `None` and `""` are falsy. -/
def truthyStr : Option String → Bool
  | some s => s != ""
  | none => false

/-- Python truthiness of an `Optional[int]`: `None` and `0` are falsy. -/
def truthyOptInt : Option Int → Bool
  | some n => n != 0
  | none => false

/-- `url_data.expires_at and url_data.expires_at < datetime.utcnow()`. -/
def expiredAt : Option Nat → Nat → Bool
  | some e, now => e < now
  | none, _ => false

/-- Outcome of `GET /{short_code}` on the URL service. -/
inductive ResolveResult where
  | ok (original_url : String) (source : String)
  | notFound
  | gone (detail : String)
deriving Repr, DecidableEq

/-- `get_original_url` from `url-service/main.py`: cache-aside resolve.
Returns the HTTP outcome together with the cache state it leaves behind. -/
def get_original_url (up : Bool) (c : Cache) (db : Store) (now : Nat)
    (code : String) : ResolveResult × Cache :=
  let cached := get_url_from_cache up c code
  if truthyStr cached then
    (.ok (cached.getD "") "cache", c)
  else
    match findByCode db code with
    | none => (.notFound, c)
    | some r =>
      if r.is_active = false then (.gone "deactivated", c)
      else if expiredAt r.expires_at now then (.gone "expired", c)
      else (.ok r.original_url "database", set_url_in_cache up c code r.original_url)

/-- The store-only branch of `get_original_url` (everything after the cache
miss), used to state cache-failure degradation. -/
def storeResolve (db : Store) (now : Nat) (code : String) : ResolveResult :=
  match findByCode db code with
  | none => .notFound
  | some r =>
    if r.is_active = false then .gone "deactivated"
    else if expiredAt r.expires_at now then .gone "expired"
    else .ok r.original_url "database"

/-- Resolution algorithm written from the words of the spec (section 4.3):
cache hit returns the cached target with no further checks; on a miss,
not found, deactivated and expired are rejected in that order, otherwise
the cache is populated and the target returned.  Comparison target for
`get_original_url`. -/
def resolveAlgorithmSpec (c : Cache) (db : Store) (now : Nat)
    (code : String) : ResolveResult × Cache :=
  match cacheGet c code with
  | some u => (.ok u "cache", c)
  | none =>
    match findByCode db code with
    | none => (.notFound, c)
    | some r =>
      if r.is_active = false then (.gone "deactivated", c)
      else if expiredAt r.expires_at now then (.gone "expired", c)
      else (.ok r.original_url "database", cacheSet c code r.original_url)

/-- ASCII model of Python `str.isalnum`: false on the empty string,
otherwise true iff every character is a letter or a digit. -/
def pyIsAlnum (s : String) : Bool :=
  s.length != 0 && s.toList.all (fun ch => ch.isAlpha || ch.isDigit)

/-- `short_code.replace("_", "").replace("-", "")`. -/
def stripHyphenUnderscore (s : String) : String :=
  String.mk (s.toList.filter (fun ch => ch != '_' && ch != '-'))

/-- `db.add` + `commit` against the unique index on `short_code`:
`none` is the `IntegrityError` branch (after `rollback` the store is the
caller's unchanged `db`). -/
def insertUnique (db : Store) (r : URLRecord) : Option Store :=
  if (findByCode db r.short_code).isSome then none else some (db ++ [r])

/-- The row built by `shorten_url` for a fresh link (`expires_at` is never
set at creation, `is_active` defaults to true). -/
def mkRow (nextId now : Nat) (orig code : String) (uid : Option Int)
    (isCustom : Bool) : URLRecord :=
  { id := nextId, original_url := orig, short_code := code,
    custom_alias := isCustom, user_id := uid, created_at := now,
    expires_at := none, is_active := true }

/-- HTTP outcome of `POST /shorten`. -/
inductive CreateResult where
  | created (code : String) (original_url : String)
  | invalidAlias (detail : String)
  | aliasTaken
  | generationExhausted
deriving Repr, DecidableEq

/-- Result of `shorten_url` together with the store and cache it leaves
behind and the number of random-generation attempts executed. -/
structure CreateOutcome where
  result : CreateResult
  db : Store
  cache : Cache
  attempts : Nat
deriving Repr, DecidableEq

/-- The `for _ in range(max_attempts)` loop of `shorten_url`: attempt `i`
generates a code and tries the insert; `IntegrityError` rolls back and
continues.  Returns the successful row and store (or `none` when the fuel
is exhausted, the `for`/`else` branch) and the number of attempts made. -/
def tryAttempts (gen : Nat → String) (nextId now : Nat) (orig : String)
    (uid : Option Int) (db : Store) (i : Nat) :
    Nat → Option (URLRecord × Store) × Nat
  | 0 => (none, 0)
  | remaining + 1 =>
    let r := mkRow nextId now orig (gen i) uid false
    match insertUnique db r with
    | some db2 => (some (r, db2), 1)
    | none =>
      let rest := tryAttempts gen nextId now orig uid db (i + 1) remaining
      (rest.1, rest.2 + 1)

/-- `shorten_url` from `url-service/main.py`.  `gen i` is the code produced
by `generate_short_code()` on attempt `i` (the random stream is a
parameter); `up` is Redis reachability.  QR-code rendering has no effect on
store, cache or status and is omitted. -/
def shorten_url (gen : Nat → String) (up : Bool) (nextId now : Nat)
    (db : Store) (c : Cache) (orig : String) (customAlias : Option String)
    (uid : Option Int) : CreateOutcome :=
  if truthyStr customAlias then
    if pyIsAlnum (stripHyphenUnderscore (customAlias.getD "")) = false then
      ⟨.invalidAlias "charset", db, c, 0⟩
    else if (customAlias.getD "").length < 3 || 20 < (customAlias.getD "").length then
      ⟨.invalidAlias "length", db, c, 0⟩
    else
      match insertUnique db (mkRow nextId now orig (customAlias.getD "") uid true) with
      | none => ⟨.aliasTaken, db, c, 0⟩
      | some db2 =>
        ⟨.created (customAlias.getD "") orig, db2,
         set_url_in_cache up c (customAlias.getD "") orig, 0⟩
  else
    match tryAttempts gen nextId now orig uid db 0 10 with
    | (none, k) => ⟨.generationExhausted, db, c, k⟩
    | (some (r, db2), k) =>
      ⟨.created r.short_code orig, db2, set_url_in_cache up c r.short_code orig, k⟩

/-- HTTP outcome of `DELETE /{short_code}` on the URL service. -/
inductive DeleteResult where
  | deactivated
  | notFound
deriving Repr, DecidableEq

/-- The row filter built by `delete_url`: always `short_code == code`, plus
`user_id == uid` only when the Python `if user_id:` test is truthy. -/
def deleteMatches (uid : Option Int) (code : String) (r : URLRecord) : Bool :=
  r.short_code == code && (if truthyOptInt uid then r.user_id == uid else true)

/-- `delete_url` from `url-service/main.py`: logical delete.  Flips
`is_active` to false on the matched row and invalidates the cache entry. -/
def delete_url (up : Bool) (db : Store) (c : Cache) (code : String)
    (uid : Option Int) : DeleteResult × Store × Cache :=
  match db.find? (deleteMatches uid code) with
  | none => (.notFound, db, c)
  | some r =>
    (.deactivated,
     db.map (fun x => if x.id == r.id then { x with is_active := false } else x),
     delete_url_from_cache up c code)

/-! Gateway (`api-gateway/main.py`). -/

/-- Character-level model of Python `s.startswith(pre)`. -/
def pyStartsWith (s pre : String) : Bool :=
  pre.toList.isPrefixOf s.toList

/-- The reserved-segment test at the top of `redirect_to_url`:
`short_code.startswith("api") or short_code in ["health", "docs", "openapi.json"]`. -/
def isReservedPath (s : String) : Bool :=
  pyStartsWith s "api" || (s == "health" || s == "docs" || s == "openapi.json")

/-- Response of the URL service as seen by the gateway. -/
inductive UrlServiceStatus where
  | ok200 (original_url : String)
  | notFound404
  | gone410
  | otherStatus (status : Nat)
deriving Repr, DecidableEq

/-- Outcome of the gateway's fire-and-forget `POST /track` call:
`failed` covers the Click Recorder being unreachable, erroring, or
exceeding the 2-second timeout (all land in the inner `except Exception`). -/
inductive TrackOutcome where
  | delivered
  | failed
deriving Repr, DecidableEq

/-- HTTP response of the gateway redirect route. -/
inductive GatewayResult where
  | redirect307 (location : String)
  | httpError (status : Nat)
deriving Repr, DecidableEq

/-- `redirect_to_url` from `api-gateway/main.py`.  `svc` is the URL
service's answer (`none` = `httpx.RequestError`, surfaced as 503); the
tracking outcome is caught and logged, so both `TrackOutcome` branches
produce the same redirect. -/
def redirect_to_url (code : String) (svc : Option UrlServiceStatus)
    (track : TrackOutcome) : GatewayResult :=
  if isReservedPath code then .httpError 404
  else
    match svc with
    | none => .httpError 503
    | some .notFound404 => .httpError 404
    | some .gone410 => .httpError 410
    | some (.otherStatus _) => .httpError 500
    | some (.ok200 u) =>
      match track with
      | .delivered => .redirect307 u
      | .failed => .redirect307 u

/-! Tokens (`api-gateway/main.py` and `auth-service/main.py`). -/

/-- A decoded JWT payload: the claims `create_access_token` writes. -/
structure TokenPayload where
  user_id : Option Int
  username : Option String
  exp : Nat
deriving Repr, DecidableEq

/-- A presented token: its payload and the key it was signed with. -/
structure JwtToken where
  payload : TokenPayload
  signedWith : String
deriving Repr, DecidableEq

/-- `jwt.decode(token, SECRET_KEY, algorithms=[ALGORITHM])`: succeeds iff
the signature matches the shared secret and the `exp` claim is still in the
future; otherwise raises `JWTError` (`none`). -/
def jwt_decode (secret : String) (now : Nat) (t : JwtToken) :
    Option TokenPayload :=
  if t.signedWith == secret && now < t.payload.exp then some t.payload else none

/-- `verify_token` from `api-gateway/main.py`: local, storeless check.
Returns the identity claims, or `none` for missing credentials, `JWTError`,
or a payload without `user_id`. -/
def verify_token (secret : String) (now : Nat)
    (credentials : Option JwtToken) : Option (Int × Option String) :=
  match credentials with
  | none => none
  | some t =>
    match jwt_decode secret now t with
    | none => none
    | some p =>
      match p.user_id with
      | none => none
      | some uid => some (uid, p.username)

/-- A row of the `users` table (auth service). -/
structure UserRecord where
  id : Int
  username : String
  email : String
  is_active : Bool
deriving Repr, DecidableEq

/-- HTTP outcome of `POST /verify` on the auth service. -/
inductive VerifyEndpointResult where
  | ok (user_id : Int) (username : String) (email : String)
  | invalidToken
  | userNotFound
  | accountInactive
deriving Repr, DecidableEq

/-- `decode_token` from `auth-service/main.py`: `none` is the 401
"Invalid token" branch (JWTError or missing `user_id`). -/
def decode_token (secret : String) (now : Nat) (t : JwtToken) :
    Option (Int × Option String) :=
  match jwt_decode secret now t with
  | none => none
  | some p =>
    match p.user_id with
    | none => none
    | some uid => some (uid, p.username)

/-- `verify_token_endpoint` from `auth-service/main.py`: decodes the token
and then reads the user row from the store, rejecting unknown (401) and
inactive (403) users. -/
def verify_token_endpoint (secret : String) (now : Nat)
    (users : List UserRecord) (t : JwtToken) : VerifyEndpointResult :=
  match decode_token secret now t with
  | none => .invalidToken
  | some pr =>
    match users.find? (fun u => u.id == pr.1) with
    | none => .userNotFound
    | some u =>
      if u.is_active then .ok u.id u.username u.email else .accountInactive

/-! Helper lemmas. -/

theorem cacheGet_entry_mem {c : Cache} {code u : String}
    (h : cacheGet c code = some u) : ∃ p ∈ c, p.2 = u := by
  unfold cacheGet at h
  rcases Option.map_eq_some'.mp h with ⟨p, hp, hval⟩
  exact ⟨p, List.mem_of_find?_eq_some hp, hval⟩

/-- Claim C1: `resolve(short_code)` follows the specified algorithm: a cache
hit returns the cached target immediately with no active/expiry check; on a
miss, a missing ShortLink is NotFound, an inactive one is Gone, an expired
one is Gone, and otherwise the cache is populated and the target returned.
The hypothesis records that cached targets are nonempty strings (they are
validated `HttpUrl`s), under which the code's truthiness test on the cached
value coincides with the spec's presence test. -/
theorem resolve_follows_spec_algorithm (c : Cache) (db : Store) (now : Nat)
    (code : String) (hinv : ∀ p ∈ c, p.2 ≠ "") :
    get_original_url true c db now code = resolveAlgorithmSpec c db now code := by
  unfold get_original_url resolveAlgorithmSpec get_url_from_cache set_url_in_cache
  cases h : cacheGet c code with
  | none => simp [h, truthyStr]
  | some u =>
    have hu : u ≠ "" := by
      rcases cacheGet_entry_mem h with ⟨p, hmem, hval⟩
      exact hval ▸ hinv p hmem
    simp [h, truthyStr, hu]

theorem resolve_follows_spec_algorithm_witness :
    get_original_url true [("abc123", "https://example.com/a")] [] 0 "abc123"
      = resolveAlgorithmSpec [("abc123", "https://example.com/a")] [] 0 "abc123" :=
  resolve_follows_spec_algorithm _ _ _ _ (by decide)

/-- Claim C5: when the Resolution Cache is unreachable (every cache read or
write raises), `resolve` degrades to a direct URL Store read: for every
cache state it returns exactly the outcome the store path prescribes, never
a cache error, and leaves the cache untouched. -/
theorem resolve_cache_down_degrades (c : Cache) (db : Store) (now : Nat)
    (code : String) :
    get_original_url false c db now code = (storeResolve db now code, c) := by
  unfold get_original_url storeResolve get_url_from_cache set_url_in_cache truthyStr
  cases hr : findByCode db code with
  | none => simp [hr]
  | some r =>
    by_cases ha : r.is_active = false
    · simp [hr, ha]
    · by_cases he : expiredAt r.expires_at now = true
      · simp [hr, ha, he]
      · simp [hr, ha, he]

theorem generate_short_code_length (rng : Nat → Nat) (n : Nat) :
    (generate_short_code rng n).length = n := by
  unfold generate_short_code
  show ((List.range n).map _).length = n
  rw [List.length_map, List.length_range]

theorem generate_short_code_chars (rng : Nat → Nat) (n : Nat) :
    ∀ ch ∈ (generate_short_code rng n).toList, ch ∈ ascii_letters_digits := by
  intro ch hch
  unfold generate_short_code at hch
  have hch2 : ch ∈ (List.range n).map (fun i =>
      ascii_letters_digits.get
        ⟨rng i % ascii_letters_digits.length,
         Nat.mod_lt _ ascii_letters_digits_length_pos⟩) := hch
  rcases List.mem_map.mp hch2 with ⟨i, _, hi⟩
  exact hi ▸ List.get_mem _ _ _

theorem tryAttempts_all_collide (gen : Nat → String) (nextId now : Nat)
    (orig : String) (uid : Option Int) (db : Store)
    (hc : ∀ j, (findByCode db (gen j)).isSome = true) :
    ∀ fuel i, tryAttempts gen nextId now orig uid db i fuel = (none, fuel) := by
  intro fuel
  induction fuel with
  | zero => intro i; rfl
  | succ m ih =>
    intro i
    unfold tryAttempts
    have hins : insertUnique db (mkRow nextId now orig (gen i) uid false) = none := by
      unfold insertUnique
      simp [mkRow, hc i]
    simp only [hins, ih (i + 1)]

/-- Claim C2: with no custom alias and a generator whose every candidate
collides with an existing short code, `create` fails with
GenerationExhausted after exactly 10 attempts, leaving store and cache
unchanged, and every attempt's candidate is a 6-character code drawn from
letters and digits. -/
theorem create_exhausts_after_ten_attempts (rng : Nat → Nat → Nat) (up : Bool)
    (nextId now : Nat) (db : Store) (c : Cache) (orig : String)
    (uid : Option Int)
    (hc : ∀ j, (findByCode db (generate_short_code (rng j) 6)).isSome = true) :
    shorten_url (fun i => generate_short_code (rng i) 6) up nextId now db c
        orig none uid
      = ⟨.generationExhausted, db, c, 10⟩
    ∧ ∀ j, (generate_short_code (rng j) 6).length = 6
        ∧ ∀ ch ∈ (generate_short_code (rng j) 6).toList,
            ch ∈ ascii_letters_digits := by
  refine ⟨?_, fun j => ⟨generate_short_code_length _ _, generate_short_code_chars _ _⟩⟩
  unfold shorten_url
  rw [tryAttempts_all_collide (fun i => generate_short_code (rng i) 6)
    nextId now orig uid db hc 10 0]
  rfl

theorem create_exhausts_after_ten_attempts_witness :
    shorten_url (fun i => generate_short_code ((fun _ _ => 0) i) 6) true 2 0
        [mkRow 1 0 "https://example.com/a" "aaaaaa" none false] [] "https://example.com/b" none none
      = ⟨.generationExhausted,
         [mkRow 1 0 "https://example.com/a" "aaaaaa" none false], [], 10⟩ :=
  (create_exhausts_after_ten_attempts (fun _ _ => 0) true 2 0
    [mkRow 1 0 "https://example.com/a" "aaaaaa" none false] [] "https://example.com/b" none
    (fun _ => rfl)).1

/-- Claim C3 counterexample: the alias "___" consists only of allowed
characters (underscores) and has length 3, so the claim says it is valid
and must be inserted; yet `shorten_url` rejects it with InvalidAlias 400,
because after stripping hyphens and underscores the empty string remains
and Python `str.isalnum` is false on the empty string. -/
theorem custom_alias_claim_counterexample :
    (shorten_url (fun _ => "x") true 1 0 [] [] "https://example.com/a"
        (some "___") none).result = CreateResult.invalidAlias "charset"
    ∧ ("___".toList.all
        (fun ch => ch == '_' || ch == '-' || ch.isAlpha || ch.isDigit)) = true
    ∧ "___".length = 3 :=
  ⟨rfl, rfl, rfl⟩

/-- Claim C3 amended: a custom alias (a nonempty string, since an empty one
is falsy and takes the no-alias path) is rejected with InvalidAlias when
the string left after removing hyphens and underscores fails Python
`isalnum` (in particular when nothing is left), then when its length is
outside 3..20; an alias passing both checks is inserted exactly once with
no generation attempt, and on a uniqueness violation the call fails with
AliasTaken leaving the store, the cache and every existing ShortLink
unchanged. -/
theorem custom_alias_validation_and_single_insert (gen : Nat → String)
    (up : Bool) (nextId now : Nat) (db : Store) (c : Cache) (orig a : String)
    (uid : Option Int) (ha : a ≠ "") :
    (pyIsAlnum (stripHyphenUnderscore a) = false →
      shorten_url gen up nextId now db c orig (some a) uid
        = ⟨.invalidAlias "charset", db, c, 0⟩)
    ∧ (pyIsAlnum (stripHyphenUnderscore a) = true →
        (a.length < 3 ∨ 20 < a.length) →
        shorten_url gen up nextId now db c orig (some a) uid
          = ⟨.invalidAlias "length", db, c, 0⟩)
    ∧ (pyIsAlnum (stripHyphenUnderscore a) = true → 3 ≤ a.length →
        a.length ≤ 20 →
        ((∀ r, findByCode db a = some r →
            shorten_url gen up nextId now db c orig (some a) uid
              = ⟨.aliasTaken, db, c, 0⟩)
         ∧ (findByCode db a = none →
            shorten_url gen up nextId now db c orig (some a) uid
              = ⟨.created a orig, db ++ [mkRow nextId now orig a uid true],
                 set_url_in_cache up c a orig, 0⟩))) := by
  have htr : truthyStr (some a) = true := by simp [truthyStr, ha]
  refine ⟨?_, ?_, ?_⟩
  · intro hbad
    unfold shorten_url
    simp [htr, hbad]
  · intro hok hlen
    unfold shorten_url
    rcases hlen with h | h <;> simp [htr, hok, h]
  · intro hok h3 h20
    have hnl : ¬(a.length < 3 ∨ 20 < a.length) := by omega
    constructor
    · intro r hr
      have hins : insertUnique db (mkRow nextId now orig a uid true) = none := by
        unfold insertUnique
        simp [mkRow, hr]
      unfold shorten_url
      simp [htr, hok, hnl, hins]
    · intro hnone
      have hins : insertUnique db (mkRow nextId now orig a uid true)
          = some (db ++ [mkRow nextId now orig a uid true]) := by
        unfold insertUnique
        simp [mkRow, hnone]
      unfold shorten_url
      simp [htr, hok, hnl, hins]

theorem custom_alias_validation_witness :
    shorten_url (fun _ => "x") true 2 5
        [mkRow 1 0 "https://example.com/a" "my-link" none true] []
        "https://example.com/b" (some "my-link") none
      = ⟨.aliasTaken, [mkRow 1 0 "https://example.com/a" "my-link" none true],
         [], 0⟩ :=
  ((custom_alias_validation_and_single_insert (fun _ => "x") true 2 5
      [mkRow 1 0 "https://example.com/a" "my-link" none true] []
      "https://example.com/b" "my-link" none (by decide)).2.2
    (by decide) (by decide) (by decide)).1
    (mkRow 1 0 "https://example.com/a" "my-link" none true) rfl

theorem cacheGet_cacheDel (c : Cache) (code : String) :
    cacheGet (cacheDel c code) code = none := by
  unfold cacheGet cacheDel
  have hnone : (c.filter (fun p => p.1 != code)).find? (fun p => p.1 == code)
      = none := by
    rw [List.find?_eq_none]
    intro x hx
    have hq := (List.mem_filter.mp hx).2
    simp only [bne_iff_ne, ne_eq] at hq
    simp [hq]
  rw [hnone]
  rfl

/-- Placeholder row used only as the default of `List.getD` in frame
statements. -/
def defaultRow : URLRecord := mkRow 0 0 "" "" none false

theorem resolve_uncached_inactive (c2 : Cache) (db2 : Store) (now : Nat)
    (code : String) (hmiss : cacheGet c2 code = none) (r2 : URLRecord)
    (hfb : findByCode db2 code = some r2) (hact : r2.is_active = false) :
    (get_original_url true c2 db2 now code).1
      = ResolveResult.gone "deactivated" := by
  unfold get_original_url get_url_from_cache
  simp [hmiss, truthyStr, hfb, hact]

/-- Claim C6: a successful delete is a logical delete — the store keeps the
same number of rows, every row is either unchanged or has only its active
flag flipped to false, the cache entry for the code is invalidated, and a
subsequent resolve of the code (now uncached) returns Gone. -/
theorem delete_is_logical_and_frame (db : Store) (c : Cache) (code : String)
    (uid : Option Int) (now : Nat)
    (hdel : (delete_url true db c code uid).1 = DeleteResult.deactivated)
    (hcodes : (db.map (fun r => r.short_code)).Nodup) :
    ((delete_url true db c code uid).2.1.length = db.length)
    ∧ (∀ i, (delete_url true db c code uid).2.1.getD i defaultRow
          = db.getD i defaultRow
        ∨ (delete_url true db c code uid).2.1.getD i defaultRow
            = { db.getD i defaultRow with is_active := false })
    ∧ (cacheGet (delete_url true db c code uid).2.2 code = none)
    ∧ ((get_original_url true (delete_url true db c code uid).2.2
          (delete_url true db c code uid).2.1 now code).1
        = ResolveResult.gone "deactivated") := by
  cases hfind : db.find? (deleteMatches uid code) with
  | none => simp [delete_url, hfind] at hdel
  | some r =>
    have hrmem : r ∈ db := List.mem_of_find?_eq_some hfind
    have hrcode : r.short_code = code := by
      have h := List.find?_some hfind
      unfold deleteMatches at h
      exact beq_iff_eq.mp (Bool.and_elim_left h)
    have hout : delete_url true db c code uid
        = (DeleteResult.deactivated,
           db.map (fun x => if x.id == r.id then { x with is_active := false } else x),
           cacheDel c code) := by
      unfold delete_url delete_url_from_cache
      rw [hfind]
      rfl
    rw [hout]
    refine ⟨List.length_map db _, ?_, ?_, ?_⟩
    · intro i
      rw [List.getD_eq_getElem?_getD, List.getD_eq_getElem?_getD,
        List.getElem?_map]
      cases hx : db[i]? with
      | none => left; rfl
      | some x =>
        by_cases hid : (x.id == r.id) = true
        · right
          show (if (x.id == r.id) = true then { x with is_active := false } else x)
              = { x with is_active := false }
          rw [if_pos hid]
        · left
          show (if (x.id == r.id) = true then { x with is_active := false } else x)
              = x
          rw [if_neg hid]
    · exact cacheGet_cacheDel c code
    · have hfb2 : findByCode
          (db.map (fun x => if x.id == r.id then { x with is_active := false } else x))
          code
          = some { r with is_active := false } := by
        unfold findByCode
        rw [List.find?_map]
        have hpred : ((fun x : URLRecord => x.short_code == code) ∘
            (fun x => if x.id == r.id then { x with is_active := false } else x))
            = fun x : URLRecord => x.short_code == code := by
          funext x
          show ((if x.id == r.id then { x with is_active := false } else x).short_code
              == code) = (x.short_code == code)
          split <;> rfl
        rw [hpred]
        have hfb : db.find? (fun x : URLRecord => x.short_code == code) = some r := by
          cases hfb0 : db.find? (fun x : URLRecord => x.short_code == code) with
          | none =>
            exfalso
            rw [List.find?_eq_none] at hfb0
            exact hfb0 r hrmem (by simp [hrcode])
          | some r2 =>
            have hr2mem : r2 ∈ db := List.mem_of_find?_eq_some hfb0
            have hr2code : r2.short_code = code := by
              have h2 := List.find?_some hfb0
              simp only [beq_iff_eq] at h2
              exact h2
            have : r2 = r :=
              List.inj_on_of_nodup_map hcodes hr2mem hrmem (by rw [hr2code, hrcode])
            rw [this]
        rw [hfb]
        simp
      exact resolve_uncached_inactive _ _ now code (cacheGet_cacheDel c code)
        _ hfb2 rfl

theorem delete_is_logical_and_frame_witness :
    cacheGet (delete_url true
        [mkRow 1 0 "https://example.com/a" "abc123" (some 5) false]
        [("abc123", "https://example.com/a")] "abc123" none).2.2 "abc123"
      = none :=
  (delete_is_logical_and_frame
    [mkRow 1 0 "https://example.com/a" "abc123" (some 5) false]
    [("abc123", "https://example.com/a")] "abc123" none 0 rfl
    (by decide)).2.2.1

theorem cacheGet_cacheSet_self (c : Cache) (code u : String) :
    cacheGet (cacheSet c code u) code = some u := by
  unfold cacheGet cacheSet
  rw [List.find?_cons_of_pos _ (by simp)]
  rfl

theorem shorten_url_created_shape (gen : Nat → String) (up : Bool)
    (nextId now : Nat) (db : Store) (c : Cache) (orig : String)
    (customAlias : Option String) (uid : Option Int) (code target : String)
    (hres : (shorten_url gen up nextId now db c orig customAlias uid).result
      = CreateResult.created code target) :
    target = orig
    ∧ (shorten_url gen up nextId now db c orig customAlias uid).cache
        = set_url_in_cache up c code orig := by
  unfold shorten_url at hres ⊢
  by_cases hca : truthyStr customAlias = true
  · rw [if_pos hca] at hres ⊢
    by_cases h1 : pyIsAlnum (stripHyphenUnderscore (customAlias.getD "")) = false
    · rw [if_pos h1] at hres
      simp at hres
    · rw [if_neg h1] at hres ⊢
      by_cases h2 : ((customAlias.getD "").length < 3
          || 20 < (customAlias.getD "").length) = true
      · rw [if_pos h2] at hres
        simp at hres
      · rw [if_neg h2] at hres ⊢
        cases hins : insertUnique db (mkRow nextId now orig (customAlias.getD "") uid true) with
        | none =>
          rw [hins] at hres
          simp at hres
        | some db2 =>
          rw [hins] at hres
          injection hres with hc ht
          refine ⟨ht.symm, ?_⟩
          show set_url_in_cache up c (customAlias.getD "") orig
              = set_url_in_cache up c code orig
          rw [hc]
  · rw [if_neg hca] at hres ⊢
    cases hta : tryAttempts gen nextId now orig uid db 0 10 with
    | mk fst k =>
      cases fst with
      | none =>
        rw [hta] at hres
        simp at hres
      | some pr =>
        obtain ⟨r, db2⟩ := pr
        rw [hta] at hres
        injection hres with hc ht
        refine ⟨ht.symm, ?_⟩
        show set_url_in_cache up c r.short_code orig
            = set_url_in_cache up c code orig
        rw [hc]

/-- Claim C7: for every successful create returning code C, the Resolution
Cache (when reachable) is populated for C before create returns, and an
immediately following resolve of C answers from the cache with the same
target URL the create stored.  The hypothesis `orig` nonempty records that
target URLs are validated nonempty `HttpUrl` strings. -/
theorem create_read_your_write (gen : Nat → String) (nextId now : Nat)
    (db : Store) (c : Cache) (orig : String) (customAlias : Option String)
    (uid : Option Int) (code : String) (horig : orig ≠ "")
    (hres : (shorten_url gen true nextId now db c orig customAlias uid).result
      = CreateResult.created code orig) :
    cacheGet (shorten_url gen true nextId now db c orig customAlias uid).cache code
      = some orig
    ∧ (get_original_url true
        (shorten_url gen true nextId now db c orig customAlias uid).cache
        (shorten_url gen true nextId now db c orig customAlias uid).db
        now code).1
      = ResolveResult.ok orig "cache" := by
  obtain ⟨_, hcache⟩ := shorten_url_created_shape gen true nextId now db c orig
    customAlias uid code orig hres
  have hget : cacheGet
      (shorten_url gen true nextId now db c orig customAlias uid).cache code
      = some orig := by
    rw [hcache]
    exact cacheGet_cacheSet_self c code orig
  refine ⟨hget, ?_⟩
  unfold get_original_url get_url_from_cache
  simp [hget, truthyStr, horig]

theorem create_read_your_write_witness :
    cacheGet (shorten_url (fun _ => "qwerty") true 1 0 [] []
        "https://example.com/a" none none).cache "qwerty"
      = some "https://example.com/a" :=
  (create_read_your_write (fun _ => "qwerty") 1 0 [] [] "https://example.com/a"
    none none "qwerty" (by decide) rfl).1

/-- Claim C4: whenever the URL service resolves the target (HTTP 200), the
gateway returns the 307 redirect to that target regardless of the outcome
of the click-recording call: a failed (unreachable, erroring or timed-out)
tracking call yields exactly the same response as a delivered one. -/
theorem redirect_ignores_tracking_outcome (code u : String)
    (track : TrackOutcome) (h : isReservedPath code = false) :
    redirect_to_url code (some (UrlServiceStatus.ok200 u)) track
      = GatewayResult.redirect307 u
    ∧ redirect_to_url code (some (UrlServiceStatus.ok200 u)) TrackOutcome.failed
      = redirect_to_url code (some (UrlServiceStatus.ok200 u))
          TrackOutcome.delivered := by
  constructor
  · unfold redirect_to_url
    rw [if_neg (by simp [h])]
    cases track <;> rfl
  · unfold redirect_to_url
    rw [if_neg (by simp [h])]

theorem redirect_ignores_tracking_outcome_witness :
    redirect_to_url "abc12" (some (UrlServiceStatus.ok200 "https://example.com/a"))
        TrackOutcome.failed
      = GatewayResult.redirect307 "https://example.com/a" :=
  (redirect_ignores_tracking_outcome "abc12" "https://example.com/a"
    TrackOutcome.failed (by decide)).1

/-- Claim C8 counterexample: the segment "apiary" is not one of the four
reserved segments, yet the gateway answers 404 without resolving it (even
when the URL service would have answered 200), because the code tests
`startswith("api")`, not equality with "api". -/
theorem reserved_segments_counterexample :
    redirect_to_url "apiary" (some (UrlServiceStatus.ok200 "https://example.com/a"))
        TrackOutcome.delivered = GatewayResult.httpError 404
    ∧ (["api", "health", "docs", "openapi.json"].contains "apiary") = false := by
  constructor
  · unfold redirect_to_url
    rw [if_pos (by decide)]
  · decide

/-- Claim C8 amended: a path segment is excluded from short-code
interpretation (answered 404 whatever the URL service would say) exactly
when it starts with "api" or equals "health", "docs" or "openapi.json";
every other segment is interpreted as a short code and, when the URL
service resolves it, answered with the 307 redirect to the original URL. -/
theorem reserved_segments_exclusion (code : String) :
    ((∀ svc track, redirect_to_url code svc track = GatewayResult.httpError 404)
      ↔ (pyStartsWith code "api" = true ∨ code = "health" ∨ code = "docs"
          ∨ code = "openapi.json"))
    ∧ (∀ u track, isReservedPath code = false →
        redirect_to_url code (some (UrlServiceStatus.ok200 u)) track
          = GatewayResult.redirect307 u) := by
  have hchar : isReservedPath code = true
      ↔ (pyStartsWith code "api" = true ∨ code = "health" ∨ code = "docs"
          ∨ code = "openapi.json") := by
    unfold isReservedPath
    simp
    tauto
  constructor
  · constructor
    · intro hall
      rw [← hchar]
      by_contra hres
      have hres2 : isReservedPath code = false := by
        cases hres3 : isReservedPath code with
        | false => rfl
        | true => exact absurd hres3 hres
      have hx := hall (some (UrlServiceStatus.ok200 "x")) TrackOutcome.delivered
      unfold redirect_to_url at hx
      rw [if_neg (by simp [hres2])] at hx
      simp at hx
    · intro hr svc track
      have hres : isReservedPath code = true := hchar.mpr hr
      unfold redirect_to_url
      rw [if_pos (by simp [hres])]
  · intro u track h
    unfold redirect_to_url
    rw [if_neg (by simp [h])]
    cases track <;> rfl

theorem reserved_segments_exclusion_witness :
    redirect_to_url "xyz789" (some (UrlServiceStatus.ok200 "https://example.com/b"))
        TrackOutcome.delivered = GatewayResult.redirect307 "https://example.com/b" :=
  (reserved_segments_exclusion "xyz789").2 "https://example.com/b"
    TrackOutcome.delivered (by decide)

/-- A concrete token carrying subject user id 1, validly signed and not yet
expired at time 0. -/
def tokenUser1 : JwtToken :=
  { payload := { user_id := some 1, username := some "alice", exp := 100 },
    signedWith := "change-me" }

/-- Claim C9 counterexample: the same token verified by the auth service's
verify endpoint against two different store states yields two different
results (200 user data vs 401 user-not-found), so its result does not
depend only on the token and the shared secret: `verify_token_endpoint`
reads the user row from the store. -/
theorem token_verify_store_counterexample :
    verify_token_endpoint "change-me" 0
        [{ id := 1, username := "alice", email := "alice@example.com",
           is_active := true }] tokenUser1
      = VerifyEndpointResult.ok 1 "alice" "alice@example.com"
    ∧ verify_token_endpoint "change-me" 0 [] tokenUser1
      = VerifyEndpointResult.userNotFound :=
  ⟨rfl, rfl⟩

/-- Claim C9 amended: the gateway's verifier is exactly the stateless
decode (signature and expiry check on the token alone), while the auth
service's verify endpoint additionally reads the user row for the token's
subject — its result depends on the store, but only through that row
(unknown user → 401, inactive user → 403). -/
theorem token_verify_dependence (secret : String) (now : Nat) (t : JwtToken)
    (users users2 : List UserRecord)
    (h : ∀ uid : Int, ∀ nm : Option String,
        decode_token secret now t = some (uid, nm) →
        users.find? (fun u => u.id == uid) = users2.find? (fun u => u.id == uid)) :
    verify_token secret now (some t) = decode_token secret now t
    ∧ verify_token_endpoint secret now users t
        = verify_token_endpoint secret now users2 t := by
  constructor
  · rfl
  · unfold verify_token_endpoint
    cases hd : decode_token secret now t with
    | none => rfl
    | some pr =>
      obtain ⟨uid, nm⟩ := pr
      dsimp only
      rw [h uid nm hd]

theorem token_verify_dependence_witness :
    verify_token_endpoint "change-me" 5
        [{ id := 1, username := "alice", email := "alice@example.com",
           is_active := true },
         { id := 2, username := "bob", email := "bob@example.com",
           is_active := true }] tokenUser1
      = verify_token_endpoint "change-me" 5
        [{ id := 1, username := "alice", email := "alice@example.com",
           is_active := true }] tokenUser1 :=
  (token_verify_dependence "change-me" 5 tokenUser1 _ _ (by
    intro uid nm hd
    rw [show decode_token "change-me" 5 tokenUser1 = some (1, some "alice")
      from rfl] at hd
    injection hd with hpair
    have huid : (1 : Int) = uid := congrArg Prod.fst hpair
    subst huid
    rfl)).2

/-- Claim C10 (implicit): the URL service's delete applies the ownership
filter only for a truthy `user_id`: with `user_id` absent it behaves
exactly as with `user_id = 0`, succeeding for any row holding the code
regardless of owner, while a nonzero `user_id` restricts the match to rows
owned by that user. -/
theorem delete_ownership_filter (up : Bool) (db : Store) (c : Cache)
    (code : String) :
    (delete_url up db c code none = delete_url up db c code (some 0))
    ∧ (((delete_url up db c code none).1 = DeleteResult.deactivated)
        ↔ ∃ r ∈ db, r.short_code = code)
    ∧ (∀ u : Int, u ≠ 0 →
        (((delete_url up db c code (some u)).1 = DeleteResult.deactivated)
          ↔ ∃ r ∈ db, r.short_code = code ∧ r.user_id = some u)) := by
  refine ⟨rfl, ?_, ?_⟩
  · cases hf : db.find? (deleteMatches none code) with
    | none =>
      rw [List.find?_eq_none] at hf
      simp [delete_url, List.find?_eq_none.mpr hf]
      intro r hr hrc
      exact hf r hr (by simp [deleteMatches, truthyOptInt, hrc])
    | some r =>
      have hrmem := List.mem_of_find?_eq_some hf
      have hcode : r.short_code = code := by
        have h2 := List.find?_some hf
        unfold deleteMatches at h2
        exact beq_iff_eq.mp (Bool.and_elim_left h2)
      simp [delete_url, hf]
      exact ⟨r, hrmem, hcode⟩
  · intro u hu
    cases hf : db.find? (deleteMatches (some u) code) with
    | none =>
      rw [List.find?_eq_none] at hf
      simp [delete_url, List.find?_eq_none.mpr hf]
      intro r hr hrc hru
      exact hf r hr (by simp [deleteMatches, truthyOptInt, hu, hrc, hru])
    | some r =>
      have hrmem := List.mem_of_find?_eq_some hf
      have h2 := List.find?_some hf
      unfold deleteMatches at h2
      have hcode : r.short_code = code := beq_iff_eq.mp (Bool.and_elim_left h2)
      have huser : r.user_id = some u := by
        have h3 := Bool.and_elim_right h2
        simp [truthyOptInt, hu] at h3
        exact h3
      simp [delete_url, hf]
      exact ⟨r, hrmem, hcode, huser⟩

theorem delete_ownership_filter_witness :
    (delete_url true [mkRow 1 0 "https://example.com/a" "abc123" (some 5) false]
        [] "abc123" (some 5)).1 = DeleteResult.deactivated :=
  ((delete_ownership_filter true
      [mkRow 1 0 "https://example.com/a" "abc123" (some 5) false]
      [] "abc123").2.2 5 (by decide)).mpr
    ⟨mkRow 1 0 "https://example.com/a" "abc123" (some 5) false,
     by simp, rfl, rfl⟩

end Shortify
